import Mathlib

/-!
Verification development for the `eth_runner.js` CLI bridge
(`src/server/eth_runner.js`): a shallow embedding of its configuration
resolution, address sanitizer, contract-client factory, the nine action
handlers, and the dispatch loop, together with theorems settling the
specification claims.

Modelling conventions:
* JavaScript values appearing in payloads and results are modelled by `Json`
  (JSON-parseable values) plus an `undefined` marker (`JSVal`) for absent fields;
  numbers are modelled as integers (every numeric literal involved in the
  claims is an integer).
* `console.log(JSON.stringify(x))` is modelled as appending the structured
  value `x` to the stdout list; emitting a `Json` value stands for writing
  its serialization, which is round-trip parseable by construction.
* External effects (deployment file contents, provider/wallet construction
  outcomes, remote contract-call outcomes, `Date.now()`) are inputs of the
  model, collected in `World`; the observable actions a run performs are
  collected in an event trace (`Ev`).
-/

set_option autoImplicit false

/-- JSON values (the results of `JSON.parse` and arguments of
`JSON.stringify`). Numbers are modelled as integers. -/
inductive Json where
  | null
  | boolean (b : Bool)
  | num (n : Int)
  | str (s : String)
  | arr (elems : List Json)
  | obj (fields : List (String × Json))

/-- A JavaScript value read from a payload field: either absent
(`undefined`) or a parsed JSON value. -/
inductive JSVal where
  | undefined
  | val (j : Json)

/-- JavaScript truthiness of a JSON value: `null`, `false`, `0` and `""`
are falsy; arrays and objects (even empty) are truthy. -/
def truthy : Json → Bool
  | .null => false
  | .boolean b => b
  | .num n => n != 0
  | .str s => !s.isEmpty
  | .arr _ => true
  | .obj _ => true

/-- JavaScript truthiness of a payload field (`undefined` is falsy). -/
def truthyV : JSVal → Bool
  | .undefined => false
  | .val j => truthy j

/-- A payload field echoed into a result object. Handlers only echo fields
that passed a truthiness check, so the `undefined` case (which
`JSON.stringify` would omit) is unreachable there; it is mapped to `null`. -/
def jsv : JSVal → Json
  | .undefined => .null
  | .val j => j

/-- The process environment variables read by the script (a `none` entry is
an unset variable). -/
structure Env where
  ETH_RPC_URL : Option String := none
  RPC_URL : Option String := none
  PRIVATE_KEY : Option String := none
  CONTRACT_ADDRESS : Option String := none
  GAS_LIMIT : Option String := none
  deriving DecidableEq

/-- JavaScript `a || b` on environment strings: an unset variable and the
empty string are falsy and fall through to `b`. -/
def jsOr (a b : Option String) : Option String :=
  match a with
  | some s => if s.isEmpty then b else some s
  | none => b

/-- JavaScript `a || d` where the fallback is a string default. -/
def jsOrD (a : Option String) (d : String) : String :=
  match a with
  | some s => if s.isEmpty then d else s
  | none => d

/-- The well-known Hardhat development private key that the source embeds
as the `PRIVATE_KEY` fallback. -/
def HARDHAT_DEFAULT_KEY : String :=
  "0xac0974bec39a17e36ba4a6b4d238ff944bacb478cbed5efcae784d7bf4f2ff80"

/-- The resolved static configuration (`CONFIG` in the source). -/
structure Config where
  RPC_URL : String
  PRIVATE_KEY : String
  CONTRACT_ADDRESS : Option String
  GAS_LIMIT : Int
  deriving DecidableEq

/-- JavaScript `Number(s)` on a decimal string; non-numeric strings (NaN in
JavaScript) are modelled as `0`, a detail no claim depends on. -/
def jsToInt (s : String) : Int :=
  (s.toInt?).getD 0

/-- Definition `CONFIG` from the source: `RPC_URL` falls back through `ETH_RPC_URL`,
`RPC_URL` to a localhost default; `PRIVATE_KEY` falls back to the Hardhat
development key; `CONTRACT_ADDRESS` falls back to `null`; `GAS_LIMIT`
defaults to `7000000`. -/
def CONFIG (e : Env) : Config where
  RPC_URL := jsOrD e.ETH_RPC_URL (jsOrD e.RPC_URL "http://127.0.0.1:8545")
  PRIVATE_KEY := jsOrD e.PRIVATE_KEY HARDHAT_DEFAULT_KEY
  CONTRACT_ADDRESS := jsOr e.CONTRACT_ADDRESS none
  GAS_LIMIT :=
    match e.GAS_LIMIT with
    | some s => if s.isEmpty then 7000000 else jsToInt s
    | none => 7000000

/-- Does the character list start with the two characters `0x`? -/
def starts0x : List Char → Bool
  | c₁ :: c₂ :: _ => c₁ = '0' && c₂ = 'x'
  | _ => false

/-- JavaScript `raw.includes("0x")`: some suffix starts with `0x`. -/
def contains0x : List Char → Bool
  | [] => false
  | c :: r => starts0x (c :: r) || contains0x r

/-- JavaScript `raw.slice(raw.indexOf("0x"))` when the substring occurs:
drop characters until the remainder starts with `0x`. -/
def dropTo0x : List Char → List Char
  | [] => []
  | c :: r => if starts0x (c :: r) then c :: r else dropTo0x r

/-- Whitespace stripped by `String.prototype.trim` (the characters relevant
here). -/
def isSpaceJS (c : Char) : Bool :=
  c = ' ' || c = '\t' || c = '\n' || c = '\r' || c = '\x0b' || c = '\x0c'

/-- Remove the maximal run of characters satisfying `p` from both ends
(the shape of both `trim` and `replace(/^q+|q+$/g, "")`). -/
def dropEnds (p : Char → Bool) (l : List Char) : List Char :=
  ((l.dropWhile p).reverse.dropWhile p).reverse

/-- JavaScript `trim`. -/
def trimJS (l : List Char) : List Char :=
  dropEnds isSpaceJS l

/-- JavaScript `replace(/^q+|q+$/g, "")` for a quote character `q`. -/
def stripQuote (q : Char) (l : List Char) : List Char :=
  dropEnds (fun c => c = q) l

/-- Core of `sanitizeAddress` on character lists: slice from the first
`0x` when the string contains both `=` and `0x`, then trim whitespace and
strip surrounding double and then single quote runs. -/
def sanitizeCore (l : List Char) : List Char :=
  if l.isEmpty then []
  else
    let l₁ := if l.contains '=' && contains0x l then dropTo0x l else l
    stripQuote '\'' (stripQuote '"' (trimJS l₁))

/-- Function `sanitizeAddress` from the source; an unset variable (`undefined`, the
falsy case) yields `""`. -/
def sanitizeAddress (raw : Option String) : String :=
  match raw with
  | none => ""
  | some s => String.mk (sanitizeCore s.data)

/-- Constant `SANITIZED_ENV_CONTRACT` from the source. -/
def SANITIZED_ENV_CONTRACT (e : Env) : String :=
  sanitizeAddress e.CONTRACT_ADDRESS

/-- Constant `EFFECTIVE_CONTRACT_ADDR` from the source:
`sanitizeAddress(process.env.CONTRACT_ADDRESS) || CONFIG.CONTRACT_ADDRESS || null`. -/
def EFFECTIVE_CONTRACT_ADDR (e : Env) : Option String :=
  jsOr (some (SANITIZED_ENV_CONTRACT e)) (CONFIG e).CONTRACT_ADDRESS

/-- The on-disk `deployment.json` as the run observes it: missing,
unparseable, or parsed with the two address keys the source consults. -/
inductive DeploymentFile where
  | absent
  | unparseable
  | parsed (contractAddress : Option String) (address : Option String)
  deriving DecidableEq

/-- Outcome of a mutating remote call: a submitted transaction hash, or a
thrown error message. -/
inductive TxResult where
  | ok (hash : String)
  | err (msg : String)
  deriving DecidableEq

/-- Outcome of a boolean-returning remote view call. -/
inductive BoolResult where
  | ok (b : Bool)
  | err (msg : String)
  deriving DecidableEq

/-- A `uint256` decoded by the client library: either already a plain
number or a big-integer wrapper value (BigNumber / bigint). -/
inductive EthNum where
  | plain (n : Int)
  | big (n : Int)
  deriving DecidableEq

/-- JavaScript `Number(x)` on a decoded numeric value: unwraps the
big-integer wrapper. -/
def ethNumToInt : EthNum → Int
  | .plain n => n
  | .big n => n

/-- Outcome of the numeric remote view call. -/
inductive NumResult where
  | ok (v : EthNum)
  | err (msg : String)
  deriving DecidableEq

/-- An attendance record tuple as decoded from the contract. -/
structure EthRecord where
  sessionCode : String
  classId : String
  studentId : String
  studentAddress : String
  timestamp : EthNum
  verified : Bool
  deriving DecidableEq

/-- Outcome of a record-returning remote view call. -/
inductive RecResult where
  | ok (r : EthRecord)
  | err (msg : String)
  deriving DecidableEq

/-- The remote contract's behavior for this invocation: one outcome per
remote procedure of the ABI. -/
structure Remote where
  createSession : TxResult
  markAttendance : TxResult
  isSessionValid : BoolResult
  hasAttended : BoolResult
  getAttendanceRecord : RecResult
  getTotalRecords : NumResult
  getRecordByIndex : RecResult
  authorizeTeacher : TxResult
  registerStudent : TxResult
  deriving DecidableEq

/-- The contract handle returned by the factory (the address it was bound
to is the observable part). -/
structure Contract where
  address : String
  deriving DecidableEq

/-- Everything external a single invocation can observe: the environment,
the deployment descriptor, whether provider and wallet construction throw
(and with which message), the remote behavior, and the clock. -/
structure World where
  env : Env
  deployment : DeploymentFile
  providerErr : Option String := none
  walletErr : Option String := none
  remote : Remote
  now : Int := 0
  deriving DecidableEq

/-- Arguments of a contract call as submitted by a handler. -/
inductive ContractCall where
  | createSession (sessionCode classId durationMinutes : JSVal) (gasLimit : Int)
  | markAttendance (sessionCode studentId classId : JSVal) (gasLimit : Int)
  | isSessionValid (sessionCode : JSVal)
  | hasAttended (sessionCode studentId : JSVal)
  | getAttendanceRecord (sessionCode studentId : JSVal)
  | getTotalRecords
  | getRecordByIndex (index : JSVal)
  | authorizeTeacher (teacherAddress : JSVal)
  | registerStudent (studentId studentAddress : JSVal)

/-- Observable events of a run: entering the contract factory, consulting
the deployment descriptor, and each remote contract call with its
arguments. -/
inductive Ev where
  | getContractCalled
  | readDeploymentFile
  | call (c : ContractCall)

/-- Sequence a step that may throw with a continuation, accumulating the
event trace (the shape of `await getContract()` followed by the handler
body). -/
def bindE {α β : Type} (x : Except String α × List Ev)
    (f : α → Except String β × List Ev) : Except String β × List Ev :=
  match x with
  | (.error e, tr) => (.error e, tr)
  | (.ok a, tr) =>
    match f a with
    | (r, tr') => (r, tr ++ tr')

/-- Provider, wallet and contract construction once an address is resolved:
any inner throw is wrapped by the surrounding catch as
`Failed to initialize contract: ...`. The defensive method-presence check
on the constructed contract always passes (the instance is built from the
full ABI). -/
def finishContract (w : World) (addr : String) : Except String Contract :=
  match w.providerErr with
  | some m => .error ("Failed to initialize contract: " ++ m)
  | none =>
    match w.walletErr with
    | some m => .error ("Failed to initialize contract: " ++ m)
    | none => .ok ⟨addr⟩

/-- Function `getContract` from the source: resolve the contract address with
precedence sanitized environment value → `CONFIG.CONTRACT_ADDRESS` →
`deployment.json` (keys `contractAddress` then `address`), consulting the
deployment file only when the first two are falsy; then construct provider,
wallet and contract. Every inner throw is wrapped as
`Failed to initialize contract: ...`. -/
def getContract (w : World) : Except String Contract × List Ev :=
  match jsOr (EFFECTIVE_CONTRACT_ADDR w.env) (CONFIG w.env).CONTRACT_ADDRESS with
  | some a => (finishContract w a, [Ev.getContractCalled])
  | none =>
    let fileAddr : Option String :=
      match w.deployment with
      | .parsed cA aA => jsOr cA (jsOr aA none)
      | _ => none
    match fileAddr with
    | some a => (finishContract w a, [Ev.getContractCalled, Ev.readDeploymentFile])
    | none =>
      (.error "Failed to initialize contract: Contract address not found. Please set CONTRACT_ADDRESS env or provide deployment.json.",
       [Ev.getContractCalled, Ev.readDeploymentFile])

/-- The JSON payload as destructured by the handlers: one slot per field
any handler reads; an absent key is `undefined`. -/
structure Payload where
  sessionCode : JSVal := .undefined
  classId : JSVal := .undefined
  studentId : JSVal := .undefined
  durationMinutes : JSVal := .undefined
  index : JSVal := .undefined
  teacherAddress : JSVal := .undefined
  studentAddress : JSVal := .undefined

/-- A destructuring default (`{ field = d } = payload`): applied only when
the field is absent (`undefined`). -/
def defaultTo (d : Int) (v : JSVal) : JSVal :=
  match v with
  | .undefined => .val (.num d)
  | v => v

/-- The `createSession` handler: validate `sessionCode` and `classId`
(truthiness), default `durationMinutes` to `30`, then submit the mutating
call and return the submission result; remote throws are wrapped as
`createSession failed: ...`. -/
def createSession (w : World) (p : Payload) : Except String Json × List Ev :=
  if !truthyV p.sessionCode || !truthyV p.classId then
    (.error "Missing required fields: sessionCode, classId", [])
  else
    bindE (getContract w) fun _c =>
      let ev := Ev.call (.createSession p.sessionCode p.classId
        (defaultTo 30 p.durationMinutes) (CONFIG w.env).GAS_LIMIT)
      match w.remote.createSession with
      | .ok h =>
        (.ok (.obj [("success", .boolean true), ("txHash", .str h),
          ("sessionCode", jsv p.sessionCode), ("classId", jsv p.classId),
          ("message", .str "Transaction submitted (not awaited); confirm status asynchronously.")]),
         [ev])
      | .err m => (.error ("createSession failed: " ++ m), [ev])

/-- The `markAttendance` handler: validate the three string fields, then submit
the mutating call directly (the source performs no pre-flight checks);
remote throws are wrapped as `markAttendance failed: ...`. -/
def markAttendance (w : World) (p : Payload) : Except String Json × List Ev :=
  if !truthyV p.sessionCode || !truthyV p.studentId || !truthyV p.classId then
    (.error "Missing required fields: sessionCode, studentId, classId", [])
  else
    bindE (getContract w) fun _c =>
      let ev := Ev.call (.markAttendance p.sessionCode p.studentId p.classId
        (CONFIG w.env).GAS_LIMIT)
      match w.remote.markAttendance with
      | .ok h =>
        (.ok (.obj [("success", .boolean true), ("txHash", .str h),
          ("blockNumber", .null),
          ("sessionCode", jsv p.sessionCode), ("studentId", jsv p.studentId),
          ("timestamp", .num w.now),
          ("message", .str "Transaction submitted (not awaited)")]),
         [ev])
      | .err m => (.error ("markAttendance failed: " ++ m), [ev])

/-- The `isSessionValid` handler. -/
def isSessionValid (w : World) (p : Payload) : Except String Json × List Ev :=
  if !truthyV p.sessionCode then
    (.error "Missing required field: sessionCode", [])
  else
    bindE (getContract w) fun _c =>
      let ev := Ev.call (.isSessionValid p.sessionCode)
      match w.remote.isSessionValid with
      | .ok b =>
        (.ok (.obj [("success", .boolean true), ("sessionCode", jsv p.sessionCode),
          ("isValid", .boolean b)]), [ev])
      | .err m => (.error ("isSessionValid failed: " ++ m), [ev])

/-- The `hasAttended` handler. -/
def hasAttended (w : World) (p : Payload) : Except String Json × List Ev :=
  if !truthyV p.sessionCode || !truthyV p.studentId then
    (.error "Missing required fields: sessionCode, studentId", [])
  else
    bindE (getContract w) fun _c =>
      let ev := Ev.call (.hasAttended p.sessionCode p.studentId)
      match w.remote.hasAttended with
      | .ok b =>
        (.ok (.obj [("success", .boolean true), ("sessionCode", jsv p.sessionCode),
          ("studentId", jsv p.studentId), ("hasAttended", .boolean b)]), [ev])
      | .err m => (.error ("hasAttended failed: " ++ m), [ev])

/-- The result object built from a decoded attendance record
(`Number(record.timestamp)` unwraps the big-integer timestamp). -/
def recordJson (r : EthRecord) : Json :=
  .obj [("sessionCode", .str r.sessionCode), ("classId", .str r.classId),
    ("studentId", .str r.studentId), ("studentAddress", .str r.studentAddress),
    ("timestamp", .num (ethNumToInt r.timestamp)), ("verified", .boolean r.verified)]

/-- The `getAttendanceRecord` handler. -/
def getAttendanceRecord (w : World) (p : Payload) : Except String Json × List Ev :=
  if !truthyV p.sessionCode || !truthyV p.studentId then
    (.error "Missing required fields: sessionCode, studentId", [])
  else
    bindE (getContract w) fun _c =>
      let ev := Ev.call (.getAttendanceRecord p.sessionCode p.studentId)
      match w.remote.getAttendanceRecord with
      | .ok r =>
        (.ok (.obj [("success", .boolean true), ("record", recordJson r)]), [ev])
      | .err m => (.error ("getAttendanceRecord failed: " ++ m), [ev])

/-- The `getTotalRecords` handler: no payload, `Number(total)` coerces the
decoded count to a plain number. -/
def getTotalRecords (w : World) : Except String Json × List Ev :=
  bindE (getContract w) fun _c =>
    let ev := Ev.call .getTotalRecords
    match w.remote.getTotalRecords with
    | .ok v =>
      (.ok (.obj [("success", .boolean true), ("totalRecords", .num (ethNumToInt v))]),
       [ev])
    | .err m => (.error ("getTotalRecords failed: " ++ m), [ev])

/-- The `getRecordByIndex` handler: unlike the string-field handlers its
validation is `index === undefined`, so `0`, `null` and `""` pass and are
forwarded to the remote call. -/
def getRecordByIndex (w : World) (p : Payload) : Except String Json × List Ev :=
  match p.index with
  | .undefined => (.error "Missing required field: index", [])
  | idx =>
    bindE (getContract w) fun _c =>
      let ev := Ev.call (.getRecordByIndex idx)
      match w.remote.getRecordByIndex with
      | .ok r =>
        (.ok (.obj [("success", .boolean true), ("record", recordJson r)]), [ev])
      | .err m => (.error ("getRecordByIndex failed: " ++ m), [ev])

/-- The `authorizeTeacher` handler. -/
def authorizeTeacher (w : World) (p : Payload) : Except String Json × List Ev :=
  if !truthyV p.teacherAddress then
    (.error "Missing required field: teacherAddress", [])
  else
    bindE (getContract w) fun _c =>
      let ev := Ev.call (.authorizeTeacher p.teacherAddress)
      match w.remote.authorizeTeacher with
      | .ok h =>
        (.ok (.obj [("success", .boolean true), ("txHash", .str h),
          ("teacherAddress", jsv p.teacherAddress)]), [ev])
      | .err m => (.error ("authorizeTeacher failed: " ++ m), [ev])

/-- The `registerStudent` handler. -/
def registerStudent (w : World) (p : Payload) : Except String Json × List Ev :=
  if !truthyV p.studentId || !truthyV p.studentAddress then
    (.error "Missing required fields: studentId, studentAddress", [])
  else
    bindE (getContract w) fun _c =>
      let ev := Ev.call (.registerStudent p.studentId p.studentAddress)
      match w.remote.registerStudent with
      | .ok h =>
        (.ok (.obj [("success", .boolean true), ("txHash", .str h),
          ("studentId", jsv p.studentId), ("studentAddress", jsv p.studentAddress)]),
         [ev])
      | .err m => (.error ("registerStudent failed: " ++ m), [ev])

/-- The error envelope written to stdout on any failure. The `stack` field
carries a runtime stack trace (environment diagnostics, not modelled;
represented by `null`, which is also its value for non-`Error` throwables). -/
def errObj (m : String) : Json :=
  .obj [("success", .boolean false), ("error", .str m), ("stack", .null)]

/-- The `switch (action)` dispatch table of `main`. -/
def dispatch (w : World) (action : String) (p : Payload) :
    Except String Json × List Ev :=
  if action = "createSession" then createSession w p
  else if action = "markAttendance" then markAttendance w p
  else if action = "isSessionValid" then isSessionValid w p
  else if action = "hasAttended" then hasAttended w p
  else if action = "getAttendanceRecord" then getAttendanceRecord w p
  else if action = "getTotalRecords" then getTotalRecords w
  else if action = "getRecordByIndex" then getRecordByIndex w p
  else if action = "authorizeTeacher" then authorizeTeacher w p
  else if action = "registerStudent" then registerStudent w p
  else (.error ("Unknown action: " ++ action), [])

/-- The nine action names of the dispatch table. -/
def actionNames : List String :=
  ["createSession", "markAttendance", "isSessionValid", "hasAttended",
   "getAttendanceRecord", "getTotalRecords", "getRecordByIndex",
   "authorizeTeacher", "registerStudent"]

/-- The second CLI argument as `main` sees it: either it parsed as JSON or
`JSON.parse` threw with a message. -/
inductive PayloadArg where
  | parsed (p : Payload)
  | malformed (msg : String)

/-- Observable outcome of one invocation: the JSON objects written to
stdout, the exit code, and the event trace. -/
structure MainResult where
  stdout : List Json
  exitCode : Nat
  trace : List Ev

/-- Serialize a dispatch outcome: one JSON result object and exit 0 on
success, one JSON error envelope and exit 1 on failure. -/
def mainFinish (r : Except String Json × List Ev) : MainResult :=
  match r with
  | (.ok j, tr) => ⟨[j], 0, tr⟩
  | (.error m, tr) => ⟨[errObj m], 1, tr⟩

/-- Function `main` from the source: no arguments is a usage error; a malformed
payload argument is a parse error; otherwise dispatch (an omitted payload
argument defaults to `{}`). Every path writes exactly one JSON object. -/
def mainRun (w : World) (args : Option (String × Option PayloadArg)) : MainResult :=
  match args with
  | none => ⟨[errObj "Usage: node eth_runner.js <action> <json_payload>"], 1, []⟩
  | some (action, arg) =>
    match arg with
    | some (.malformed m) => ⟨[errObj m], 1, []⟩
    | some (.parsed p) => mainFinish (dispatch w action p)
    | none => mainFinish (dispatch w action {})

/-- An environment with a clean contract address set. -/
def testEnv : Env where
  CONTRACT_ADDRESS := some "0xFEED"

/-- A remote that accepts every call. -/
def testRemote : Remote where
  createSession := .ok "0xtxc"
  markAttendance := .ok "0xtxm"
  isSessionValid := .ok true
  hasAttended := .ok false
  getAttendanceRecord := .ok ⟨"S1", "C1", "ST1", "0xstu", .big 1000, true⟩
  getTotalRecords := .ok (.big 42)
  getRecordByIndex := .ok ⟨"S1", "C1", "ST1", "0xstu", .big 1000, true⟩
  authorizeTeacher := .ok "0xtxa"
  registerStudent := .ok "0xtxr"

/-- A world in which configuration and every remote call succeed. -/
def testWorld : World where
  env := testEnv
  deployment := .absent
  remote := testRemote
  now := 1730000000000

/-- Variant of `testWorld` with a remote that reports the session invalid and the
student already attended (but still accepts transactions). -/
def invalidSessionWorld : World :=
  { testWorld with
    remote := { testRemote with isSessionValid := .ok false, hasAttended := .ok true } }

/-- A world with no environment at all but a deployment descriptor. -/
def bareWorld : World where
  env := {}
  deployment := .parsed (some "0xFEED") none
  remote := testRemote

/-- The payload `{index: ""}`: the required field is present but empty. -/
def emptyIndexPayload : Payload where
  index := .val (.str "")

/-- A fully valid `markAttendance` payload. -/
def markPayload : Payload where
  sessionCode := .val (.str "S1")
  studentId := .val (.str "ST1")
  classId := .val (.str "C1")

/-- A payload with `classId` but no `sessionCode`. -/
def missingSessionPayload : Payload where
  classId := .val (.str "C1")

/-- The payload `{sessionCode: "S1", classId: "C1"}`. -/
def csPayload : Payload where
  sessionCode := .val (.str "S1")
  classId := .val (.str "C1")

/-- Optional surrounding quoting of a raw environment value. -/
inductive Wrap where
  | plain
  | dquote
  | squote

/-- Apply the optional surrounding quotes. -/
def wrapS : Wrap → List Char → List Char
  | .plain, l => l
  | .dquote, l => '"' :: (l ++ ['"'])
  | .squote, l => '\'' :: (l ++ ['\''])

/-- A hexadecimal digit (the characters an address may contain after `0x`). -/
def isHexChar (c : Char) : Bool :=
  ('0' ≤ c && c ≤ '9') || ('a' ≤ c && c ≤ 'f') || ('A' ≤ c && c ≤ 'F')

lemma createSession_ok_obj (w : World) (p : Payload) (j : Json)
    (h : (createSession w p).1 = .ok j) : ∃ fs, j = .obj fs := by
  unfold createSession bindE at h
  split at h
  · exact absurd h (by simp)
  · rcases hg : getContract w with ⟨r, tr⟩
    rw [hg] at h
    cases r with
    | error e => simp at h
    | ok c =>
      cases hr : w.remote.createSession with
      | ok hsh => rw [hr] at h; simp at h; exact ⟨_, h.symm⟩
      | err m => rw [hr] at h; simp at h

lemma markAttendance_ok_obj (w : World) (p : Payload) (j : Json)
    (h : (markAttendance w p).1 = .ok j) : ∃ fs, j = .obj fs := by
  unfold markAttendance bindE at h
  split at h
  · exact absurd h (by simp)
  · rcases hg : getContract w with ⟨r, tr⟩
    rw [hg] at h
    cases r with
    | error e => simp at h
    | ok c =>
      cases hr : w.remote.markAttendance with
      | ok hsh => rw [hr] at h; simp at h; exact ⟨_, h.symm⟩
      | err m => rw [hr] at h; simp at h

lemma isSessionValid_ok_obj (w : World) (p : Payload) (j : Json)
    (h : (isSessionValid w p).1 = .ok j) : ∃ fs, j = .obj fs := by
  unfold isSessionValid bindE at h
  split at h
  · exact absurd h (by simp)
  · rcases hg : getContract w with ⟨r, tr⟩
    rw [hg] at h
    cases r with
    | error e => simp at h
    | ok c =>
      cases hr : w.remote.isSessionValid with
      | ok b => rw [hr] at h; simp at h; exact ⟨_, h.symm⟩
      | err m => rw [hr] at h; simp at h

lemma hasAttended_ok_obj (w : World) (p : Payload) (j : Json)
    (h : (hasAttended w p).1 = .ok j) : ∃ fs, j = .obj fs := by
  unfold hasAttended bindE at h
  split at h
  · exact absurd h (by simp)
  · rcases hg : getContract w with ⟨r, tr⟩
    rw [hg] at h
    cases r with
    | error e => simp at h
    | ok c =>
      cases hr : w.remote.hasAttended with
      | ok b => rw [hr] at h; simp at h; exact ⟨_, h.symm⟩
      | err m => rw [hr] at h; simp at h

lemma getAttendanceRecord_ok_obj (w : World) (p : Payload) (j : Json)
    (h : (getAttendanceRecord w p).1 = .ok j) : ∃ fs, j = .obj fs := by
  unfold getAttendanceRecord bindE at h
  split at h
  · exact absurd h (by simp)
  · rcases hg : getContract w with ⟨r, tr⟩
    rw [hg] at h
    cases r with
    | error e => simp at h
    | ok c =>
      cases hr : w.remote.getAttendanceRecord with
      | ok b => rw [hr] at h; simp at h; exact ⟨_, h.symm⟩
      | err m => rw [hr] at h; simp at h

lemma getTotalRecords_ok_obj (w : World) (j : Json)
    (h : (getTotalRecords w).1 = .ok j) : ∃ fs, j = .obj fs := by
  unfold getTotalRecords bindE at h
  rcases hg : getContract w with ⟨r, tr⟩
  rw [hg] at h
  cases r with
  | error e => simp at h
  | ok c =>
    cases hr : w.remote.getTotalRecords with
    | ok v => rw [hr] at h; simp at h; exact ⟨_, h.symm⟩
    | err m => rw [hr] at h; simp at h

lemma getRecordByIndex_ok_obj (w : World) (p : Payload) (j : Json)
    (h : (getRecordByIndex w p).1 = .ok j) : ∃ fs, j = .obj fs := by
  unfold getRecordByIndex bindE at h
  split at h
  · exact absurd h (by simp)
  · rcases hg : getContract w with ⟨r, tr⟩
    rw [hg] at h
    cases r with
    | error e => simp at h
    | ok c =>
      cases hr : w.remote.getRecordByIndex with
      | ok b => rw [hr] at h; simp at h; exact ⟨_, h.symm⟩
      | err m => rw [hr] at h; simp at h

lemma authorizeTeacher_ok_obj (w : World) (p : Payload) (j : Json)
    (h : (authorizeTeacher w p).1 = .ok j) : ∃ fs, j = .obj fs := by
  unfold authorizeTeacher bindE at h
  split at h
  · exact absurd h (by simp)
  · rcases hg : getContract w with ⟨r, tr⟩
    rw [hg] at h
    cases r with
    | error e => simp at h
    | ok c =>
      cases hr : w.remote.authorizeTeacher with
      | ok hsh => rw [hr] at h; simp at h; exact ⟨_, h.symm⟩
      | err m => rw [hr] at h; simp at h

lemma registerStudent_ok_obj (w : World) (p : Payload) (j : Json)
    (h : (registerStudent w p).1 = .ok j) : ∃ fs, j = .obj fs := by
  unfold registerStudent bindE at h
  split at h
  · exact absurd h (by simp)
  · rcases hg : getContract w with ⟨r, tr⟩
    rw [hg] at h
    cases r with
    | error e => simp at h
    | ok c =>
      cases hr : w.remote.registerStudent with
      | ok hsh => rw [hr] at h; simp at h; exact ⟨_, h.symm⟩
      | err m => rw [hr] at h; simp at h

lemma dispatch_ok_obj (w : World) (a : String) (p : Payload) (j : Json)
    (h : (dispatch w a p).1 = .ok j) : ∃ fs, j = .obj fs := by
  unfold dispatch at h
  repeat' split at h
  all_goals first
    | exact createSession_ok_obj w p j h
    | exact markAttendance_ok_obj w p j h
    | exact isSessionValid_ok_obj w p j h
    | exact hasAttended_ok_obj w p j h
    | exact getAttendanceRecord_ok_obj w p j h
    | exact getTotalRecords_ok_obj w j h
    | exact getRecordByIndex_ok_obj w p j h
    | exact authorizeTeacher_ok_obj w p j h
    | exact registerStudent_ok_obj w p j h
    | simp at h

lemma mainFinish_dispatch_obj (w : World) (a : String) (p : Payload) :
    ∃ fs, (mainFinish (dispatch w a p)).stdout = [Json.obj fs] := by
  rcases hd : dispatch w a p with ⟨r, tr⟩
  cases r with
  | ok j =>
    obtain ⟨fs, hfs⟩ := dispatch_ok_obj w a p j (by rw [hd])
    exact ⟨fs, by simp [mainFinish, hfs]⟩
  | error m =>
    exact ⟨[("success", .boolean false), ("error", .str m), ("stack", .null)], rfl⟩

/-- C1: for every invocation of the CLI entry point (any action name, any
payload, success or failure of the handler, including payload JSON-parse
failure and unknown action), exactly one JSON object is written to stdout.
Emitting a structured `Json` value models writing its serialization, which
is valid, round-trip-parseable JSON by construction. -/
theorem c1_single_json_object (w : World) (args : Option (String × Option PayloadArg)) :
    ∃ fs, (mainRun w args).stdout = [Json.obj fs] := by
  rcases args with _ | ⟨a, arg⟩
  · exact ⟨[("success", .boolean false),
      ("error", .str "Usage: node eth_runner.js <action> <json_payload>"),
      ("stack", .null)], rfl⟩
  · rcases arg with _ | pa
    · exact mainFinish_dispatch_obj w a {}
    · rcases pa with p | m
      · exact mainFinish_dispatch_obj w a p
      · exact ⟨[("success", .boolean false), ("error", .str m), ("stack", .null)], rfl⟩





/-- C3: evaluating the configuration with no signing key and no endpoint in
the environment: the code substitutes the well-known Hardhat development
key and the default localhost endpoint, and the contract-client factory
then succeeds (no ConfigurationError is raised for the missing key or
endpoint). -/
theorem c3_insecure_defaults :
    (CONFIG {}).PRIVATE_KEY = HARDHAT_DEFAULT_KEY
    ∧ (CONFIG {}).RPC_URL = "http://127.0.0.1:8545"
    ∧ (getContract bareWorld).1 = .ok ⟨"0xFEED"⟩ :=
  ⟨rfl, rfl, rfl⟩

/-- C2 counterexample: `getRecordByIndex` with the payload
`{index: ""}` (a present but empty required field) does not fail before
any remote work: the invocation succeeds (exit code 0) and both the
contract-client construction and the remote call appear in the trace. -/
theorem c2_counterexample :
    (mainRun testWorld (some ("getRecordByIndex",
        some (.parsed emptyIndexPayload)))).exitCode = 0
    ∧ (mainRun testWorld (some ("getRecordByIndex",
        some (.parsed emptyIndexPayload)))).trace =
      [Ev.getContractCalled, Ev.call (.getRecordByIndex (.val (.str "")))] :=
  ⟨rfl, rfl⟩

/-- C7 counterexample: for the raw string `A0x=0xABC` (KEY `A0x`, address
`0xABC`), the sanitizer slices from the first occurrence of `0x`, which is
inside the KEY, and returns `0x=0xABC` instead of the address `0xABC`. -/
theorem c7_counterexample :
    sanitizeAddress (some "A0x=0xABC") = "0x=0xABC"
    ∧ (sanitizeAddress (some "A0x=0xABC") == "0xABC") = false :=
  ⟨rfl, rfl⟩

/-- C4 counterexample: with a valid payload and a remote that reports the
session invalid (and the student already attended), `markAttendance` still
submits the mutating call (it appears in the trace, with no pre-flight
read in front of it) and the invocation succeeds. -/
theorem c4_counterexample :
    (mainRun invalidSessionWorld (some ("markAttendance",
        some (.parsed markPayload)))).exitCode = 0
    ∧ (mainRun invalidSessionWorld (some ("markAttendance",
        some (.parsed markPayload)))).trace =
      [Ev.getContractCalled,
       Ev.call (.markAttendance (.val (.str "S1")) (.val (.str "ST1"))
         (.val (.str "C1")) 7000000)] :=
  ⟨rfl, rfl⟩

/-- C2 (amended): for the seven handlers whose required fields are strings,
every payload with a required field absent or falsy (in particular empty)
fails with `success:false` and the error message naming the required
fields (including the missing one), with exit code 1 and an empty trace —
so no contract-client construction and no remote call is attempted;
`getRecordByIndex` fails this way exactly when `index` is absent
(`undefined`), while present falsy values such as `""` are forwarded
(see the counterexample). `getTotalRecords` reads no fields. -/
theorem c2_amended (w : World) (p : Payload) :
    ((truthyV p.sessionCode = false ∨ truthyV p.classId = false) →
      mainRun w (some ("createSession", some (.parsed p))) =
        ⟨[errObj "Missing required fields: sessionCode, classId"], 1, []⟩)
    ∧ ((truthyV p.sessionCode = false ∨ truthyV p.studentId = false ∨ truthyV p.classId = false) →
      mainRun w (some ("markAttendance", some (.parsed p))) =
        ⟨[errObj "Missing required fields: sessionCode, studentId, classId"], 1, []⟩)
    ∧ (truthyV p.sessionCode = false →
      mainRun w (some ("isSessionValid", some (.parsed p))) =
        ⟨[errObj "Missing required field: sessionCode"], 1, []⟩)
    ∧ ((truthyV p.sessionCode = false ∨ truthyV p.studentId = false) →
      mainRun w (some ("hasAttended", some (.parsed p))) =
        ⟨[errObj "Missing required fields: sessionCode, studentId"], 1, []⟩)
    ∧ ((truthyV p.sessionCode = false ∨ truthyV p.studentId = false) →
      mainRun w (some ("getAttendanceRecord", some (.parsed p))) =
        ⟨[errObj "Missing required fields: sessionCode, studentId"], 1, []⟩)
    ∧ (p.index = .undefined →
      mainRun w (some ("getRecordByIndex", some (.parsed p))) =
        ⟨[errObj "Missing required field: index"], 1, []⟩)
    ∧ (truthyV p.teacherAddress = false →
      mainRun w (some ("authorizeTeacher", some (.parsed p))) =
        ⟨[errObj "Missing required field: teacherAddress"], 1, []⟩)
    ∧ ((truthyV p.studentId = false ∨ truthyV p.studentAddress = false) →
      mainRun w (some ("registerStudent", some (.parsed p))) =
        ⟨[errObj "Missing required fields: studentId, studentAddress"], 1, []⟩) := by
  refine ⟨?_, ?_, ?_, ?_, ?_, ?_, ?_, ?_⟩
  · intro h
    have hc : (!truthyV p.sessionCode || !truthyV p.classId) = true := by
      rcases h with h | h <;> simp [h]
    simp [mainRun, mainFinish, dispatch, createSession, hc]
  · intro h
    have hc : (!truthyV p.sessionCode || !truthyV p.studentId || !truthyV p.classId) = true := by
      rcases h with h | h | h <;> simp [h]
    simp [mainRun, mainFinish, dispatch, markAttendance, hc]
  · intro h
    simp [mainRun, mainFinish, dispatch, isSessionValid, h]
  · intro h
    have hc : (!truthyV p.sessionCode || !truthyV p.studentId) = true := by
      rcases h with h | h <;> simp [h]
    simp [mainRun, mainFinish, dispatch, hasAttended, hc]
  · intro h
    have hc : (!truthyV p.sessionCode || !truthyV p.studentId) = true := by
      rcases h with h | h <;> simp [h]
    simp [mainRun, mainFinish, dispatch, getAttendanceRecord, hc]
  · intro h
    simp [mainRun, mainFinish, dispatch, getRecordByIndex, h]
  · intro h
    simp [mainRun, mainFinish, dispatch, authorizeTeacher, h]
  · intro h
    have hc : (!truthyV p.studentId || !truthyV p.studentAddress) = true := by
      rcases h with h | h <;> simp [h]
    simp [mainRun, mainFinish, dispatch, registerStudent, hc]

lemma getContract_snd (w : World) :
    (getContract w).2 = [Ev.getContractCalled]
    ∨ (getContract w).2 = [Ev.getContractCalled, Ev.readDeploymentFile] := by
  unfold getContract
  repeat' split <;> simp

lemma call_not_mem_getContract_snd (w : World) (c : ContractCall) :
    Ev.call c ∉ (getContract w).2 := by
  rcases getContract_snd w with h | h <;> rw [h] <;> simp

/-- C8: for every action name outside the nine handler names, the
invocation writes the error envelope whose message is
`Unknown action: <name>` (so it mentions "Unknown action") and exits
with code 1; and whenever dispatch succeeds, the invocation exits with
code 0 writing exactly the handler result. -/
theorem c8_unknown_action (w : World) (a : String) (p : Payload) (j : Json) :
    (a ∉ actionNames →
      mainRun w (some (a, some (.parsed p))) =
        ⟨[errObj ("Unknown action: " ++ a)], 1, []⟩)
    ∧ ((dispatch w a p).1 = .ok j →
      (mainRun w (some (a, some (.parsed p)))).exitCode = 0
      ∧ (mainRun w (some (a, some (.parsed p)))).stdout = [j]) := by
  constructor
  · intro h
    simp [actionNames] at h
    obtain ⟨h1, h2, h3, h4, h5, h6, h7, h8, h9⟩ := h
    simp [mainRun, mainFinish, dispatch, h1, h2, h3, h4, h5, h6, h7, h8, h9]
  · intro h
    rcases hd : dispatch w a p with ⟨r, tr⟩
    rw [hd] at h
    cases r with
    | error m => simp at h
    | ok j' =>
      simp at h
      subst h
      simp [mainRun, mainFinish, hd]

/-- C5: the contract-client factory resolves the address with precedence
sanitized environment value → static configuration → deployment
descriptor (`contractAddress` key first, then `address`); the deployment
descriptor is consulted (a `readDeploymentFile` event occurs) only when
the first two sources are empty, and when no source yields an address the
factory fails with the configuration error message. -/
theorem c5_address_precedence (w : World) :
    ((SANITIZED_ENV_CONTRACT w.env).isEmpty = false →
      Ev.readDeploymentFile ∉ (getContract w).2
      ∧ (w.providerErr = none → w.walletErr = none →
        (getContract w).1 = .ok ⟨SANITIZED_ENV_CONTRACT w.env⟩))
    ∧ (∀ c, (SANITIZED_ENV_CONTRACT w.env).isEmpty = true →
      (CONFIG w.env).CONTRACT_ADDRESS = some c →
      Ev.readDeploymentFile ∉ (getContract w).2
      ∧ (w.providerErr = none → w.walletErr = none →
        (getContract w).1 = .ok ⟨c⟩))
    ∧ ((SANITIZED_ENV_CONTRACT w.env).isEmpty = true →
      (CONFIG w.env).CONTRACT_ADDRESS = none →
      Ev.readDeploymentFile ∈ (getContract w).2
      ∧ (∀ c aA, c.isEmpty = false → w.deployment = .parsed (some c) aA →
        w.providerErr = none → w.walletErr = none →
        (getContract w).1 = .ok ⟨c⟩)
      ∧ (∀ c, c.isEmpty = false → w.deployment = .parsed none (some c) →
        w.providerErr = none → w.walletErr = none →
        (getContract w).1 = .ok ⟨c⟩)
      ∧ ((w.deployment = .absent ∨ w.deployment = .unparseable
          ∨ w.deployment = .parsed none none) →
        (getContract w).1 = .error "Failed to initialize contract: Contract address not found. Please set CONTRACT_ADDRESS env or provide deployment.json.")) := by
  refine ⟨?_, ?_, ?_⟩
  · intro h
    have he : jsOr (EFFECTIVE_CONTRACT_ADDR w.env) (CONFIG w.env).CONTRACT_ADDRESS
        = some (SANITIZED_ENV_CONTRACT w.env) := by
      unfold EFFECTIVE_CONTRACT_ADDR jsOr
      simp [h]
    constructor
    · simp [getContract, he]
    · intro hp hw
      simp [getContract, he, finishContract, hp, hw]
  · intro c h hc
    have he : jsOr (EFFECTIVE_CONTRACT_ADDR w.env) (CONFIG w.env).CONTRACT_ADDRESS
        = some c := by
      unfold EFFECTIVE_CONTRACT_ADDR jsOr
      simp [h, hc]
    constructor
    · simp [getContract, he]
    · intro hp hw
      simp [getContract, he, finishContract, hp, hw]
  · intro h hc
    have he : jsOr (EFFECTIVE_CONTRACT_ADDR w.env) (CONFIG w.env).CONTRACT_ADDRESS
        = none := by
      unfold EFFECTIVE_CONTRACT_ADDR jsOr
      simp [h, hc]
    refine ⟨?_, ?_, ?_, ?_⟩
    · unfold getContract
      rw [he]
      dsimp only
      split <;> simp
    · intro c aA hne hd hp hw
      unfold getContract
      rw [he, hd]
      simp [jsOr, hne, finishContract, hp, hw]
    · intro c hne hd hp hw
      unfold getContract
      rw [he, hd]
      simp [jsOr, hne, finishContract, hp, hw]
    · intro hd
      unfold getContract
      rw [he]
      rcases hd with hd | hd | hd <;> simp [hd, jsOr]

/-- C4 (amended): `markAttendance` with a valid payload performs no
pre-flight read-only checks: no `isSessionValid` or `hasAttended` call
ever appears in its trace; whenever the factory succeeds it submits the
mutating `markAttendance` call directly, and a remote rejection surfaces
only afterwards as the wrapped error `markAttendance failed: ...`. -/
theorem c4_no_preflight (w : World) (p : Payload)
    (h1 : truthyV p.sessionCode = true) (h2 : truthyV p.studentId = true)
    (h3 : truthyV p.classId = true) :
    (∀ sc, Ev.call (.isSessionValid sc) ∉ (markAttendance w p).2)
    ∧ (∀ sc st, Ev.call (.hasAttended sc st) ∉ (markAttendance w p).2)
    ∧ (∀ ctr, (getContract w).1 = .ok ctr →
      Ev.call (.markAttendance p.sessionCode p.studentId p.classId
        (CONFIG w.env).GAS_LIMIT) ∈ (markAttendance w p).2)
    ∧ (∀ ctr m, (getContract w).1 = .ok ctr → w.remote.markAttendance = .err m →
      (markAttendance w p).1 = .error ("markAttendance failed: " ++ m)) := by
  have hc : (!truthyV p.sessionCode || !truthyV p.studentId || !truthyV p.classId) = false := by
    simp [h1, h2, h3]
  rcases hg : getContract w with ⟨r, tr⟩
  have htr : tr = (getContract w).2 := by rw [hg]
  refine ⟨?_, ?_, ?_, ?_⟩
  · intro sc
    unfold markAttendance bindE
    rw [hc, hg]
    cases r with
    | error e =>
      simp only [Bool.false_eq_true, if_false]
      intro hmem
      exact call_not_mem_getContract_snd w _ (htr ▸ hmem)
    | ok c =>
      cases hr : w.remote.markAttendance <;>
        · simp only [Bool.false_eq_true, if_false, hr, List.mem_append, List.mem_singleton]
          rintro (hmem | hmem)
          · exact call_not_mem_getContract_snd w _ (htr ▸ hmem)
          · exact Ev.noConfusion hmem fun hc' => ContractCall.noConfusion hc'
  · intro sc st
    unfold markAttendance bindE
    rw [hc, hg]
    cases r with
    | error e =>
      simp only [Bool.false_eq_true, if_false]
      intro hmem
      exact call_not_mem_getContract_snd w _ (htr ▸ hmem)
    | ok c =>
      cases hr : w.remote.markAttendance <;>
        · simp only [Bool.false_eq_true, if_false, hr, List.mem_append, List.mem_singleton]
          rintro (hmem | hmem)
          · exact call_not_mem_getContract_snd w _ (htr ▸ hmem)
          · exact Ev.noConfusion hmem fun hc' => ContractCall.noConfusion hc'
  · intro ctr hok
    unfold markAttendance bindE
    rw [hc, hg]
    cases r with
    | error e => simp at hok
    | ok c =>
      cases hr : w.remote.markAttendance <;> simp [hr]
  · intro ctr m hok hr
    unfold markAttendance bindE
    rw [hc, hg]
    cases r with
    | error e => simp at hok
    | ok c => simp [hr]

/-- C6: for every `createSession` payload that has `sessionCode` and
`classId` but omits `durationMinutes`, the only remote call the handler
can make is `createSession` with exactly the argument tuple
(sessionCode, classId, 30) (plus the configured gas ceiling), and the
call is made whenever the factory succeeds. -/
theorem c6_default_duration (w : World) (p : Payload)
    (h1 : truthyV p.sessionCode = true) (h2 : truthyV p.classId = true)
    (h3 : p.durationMinutes = .undefined) :
    (∀ c, Ev.call c ∈ (createSession w p).2 →
      c = .createSession p.sessionCode p.classId (.val (.num 30))
        (CONFIG w.env).GAS_LIMIT)
    ∧ (∀ ctr, (getContract w).1 = .ok ctr →
      Ev.call (.createSession p.sessionCode p.classId (.val (.num 30))
        (CONFIG w.env).GAS_LIMIT) ∈ (createSession w p).2) := by
  have hc : (!truthyV p.sessionCode || !truthyV p.classId) = false := by
    simp [h1, h2]
  have hd : defaultTo 30 p.durationMinutes = .val (.num 30) := by
    rw [h3]; rfl
  rcases hg : getContract w with ⟨r, tr⟩
  have htr : tr = (getContract w).2 := by rw [hg]
  constructor
  · intro c
    unfold createSession bindE
    rw [hc, hg, hd]
    cases r with
    | error e =>
      simp only [Bool.false_eq_true, if_false]
      intro hmem
      exact absurd (htr ▸ hmem) (call_not_mem_getContract_snd w c)
    | ok ctr =>
      cases hr : w.remote.createSession <;>
        · simp only [Bool.false_eq_true, if_false, hr, List.mem_append, List.mem_singleton]
          rintro (hmem | hmem)
          · exact absurd (htr ▸ hmem) (call_not_mem_getContract_snd w c)
          · cases hmem; rfl
  · intro ctr hok
    unfold createSession bindE
    rw [hc, hg, hd]
    cases r with
    | error e => simp at hok
    | ok c' =>
      cases hr : w.remote.createSession <;> simp [hr]

/-- C9: a `getTotalRecords` invocation with no payload, when the remote
call returns a numeric value — whether a big-integer wrapper or a plain
number — succeeds and its result object carries `totalRecords` as the
plain number obtained by the `Number(...)` coercion. -/
theorem c9_total_records (w : World) (n : Int) (ctr : Contract)
    (hok : (getContract w).1 = .ok ctr)
    (h : w.remote.getTotalRecords = .ok (.big n)
      ∨ w.remote.getTotalRecords = .ok (.plain n)) :
    mainRun w (some ("getTotalRecords", none)) =
      ⟨[Json.obj [("success", .boolean true), ("totalRecords", .num n)]], 0,
       (getContract w).2 ++ [Ev.call .getTotalRecords]⟩ := by
  unfold mainRun mainFinish dispatch getTotalRecords bindE
  rcases hg : getContract w with ⟨r, tr⟩
  rw [hg] at hok
  cases r with
  | error e => simp at hok
  | ok c =>
    rcases h with h | h <;> simp [h, ethNumToInt]

/-- C10: `getRecordByIndex` rejects a payload exactly when `index` is
absent (`undefined`); any present value — including the falsy `0`,
`null` and `""` — passes validation and is forwarded as the remote call
argument, while the same falsy value placed in a required string field
makes every string-field handler fail before any remote work. -/
theorem c10_index_only_undefined (w : World) (v : JSVal) :
    (v = .undefined →
      getRecordByIndex w { index := v } =
        (.error "Missing required field: index", []))
    ∧ (∀ ctr, v ≠ .undefined → (getContract w).1 = .ok ctr →
      Ev.call (.getRecordByIndex v) ∈ (getRecordByIndex w { index := v }).2)
    ∧ (truthyV v = false →
      isSessionValid w { sessionCode := v } =
        (.error "Missing required field: sessionCode", [])
      ∧ createSession w { sessionCode := v, classId := .val (.str "C1") } =
        (.error "Missing required fields: sessionCode, classId", [])
      ∧ markAttendance w { sessionCode := v, studentId := .val (.str "ST1"), classId := .val (.str "C1") } =
        (.error "Missing required fields: sessionCode, studentId, classId", [])
      ∧ hasAttended w { sessionCode := v, studentId := .val (.str "ST1") } =
        (.error "Missing required fields: sessionCode, studentId", [])
      ∧ getAttendanceRecord w { sessionCode := v, studentId := .val (.str "ST1") } =
        (.error "Missing required fields: sessionCode, studentId", [])
      ∧ authorizeTeacher w { teacherAddress := v } =
        (.error "Missing required field: teacherAddress", [])
      ∧ registerStudent w { studentId := v, studentAddress := .val (.str "0xS") } =
        (.error "Missing required fields: studentId, studentAddress", [])) := by
  refine ⟨?_, ?_, ?_⟩
  · intro h
    subst h
    rfl
  · intro ctr hv hok
    unfold getRecordByIndex bindE
    rcases hg : getContract w with ⟨r, tr⟩
    rw [hg] at hok
    cases r with
    | error e => simp at hok
    | ok c =>
      cases v with
      | undefined => exact absurd rfl hv
      | val j =>
        cases hr : w.remote.getRecordByIndex with
        | ok rec => simp [hr]
        | err m => simp [hr]
  · intro h
    refine ⟨?_, ?_, ?_, ?_, ?_, ?_, ?_⟩ <;>
      simp [isSessionValid, createSession, markAttendance, hasAttended,
        getAttendanceRecord, authorizeTeacher, registerStudent, h]

lemma starts0x_dropTo0x_self (l : List Char) (h : starts0x l = true) :
    dropTo0x l = l := by
  cases l with
  | nil => simp [starts0x] at h
  | cons c r => simp [dropTo0x, h]

lemma dropTo0x_append (p q : List Char) (hq : starts0x q = true)
    (hp : ∀ i, i < p.length → starts0x (List.drop i (p ++ q)) = false) :
    dropTo0x (p ++ q) = q := by
  induction p with
  | nil => simpa using starts0x_dropTo0x_self q hq
  | cons c p' ih =>
    have h0 : starts0x (c :: (p' ++ q)) = false := by
      have := hp 0 (by simp)
      simpa using this
    rw [List.cons_append, dropTo0x, h0]
    · simp only [Bool.false_eq_true, if_false]
      exact ih fun i hi => by
        have := hp (i + 1) (by simpa using Nat.succ_lt_succ hi)
        simpa using this

lemma contains0x_drop (p : List Char) (hp : contains0x p = false) :
    ∀ i, starts0x (List.drop i p) = false := by
  induction p with
  | nil => intro i; simp [starts0x]
  | cons c r ih =>
    intro i
    rw [contains0x] at hp
    simp only [Bool.or_eq_false_iff] at hp
    cases i with
    | zero => exact hp.1
    | succ i' => simpa using ih hp.2 i'

lemma starts0x_append_false (p t : List Char) (i : Nat) (hi : i < p.length)
    (hp : contains0x p = false) :
    starts0x (List.drop i p ++ '0' :: 'x' :: t) = false := by
  have hne : List.drop i p ≠ [] := by
    simp [List.drop_eq_nil_iff]
    omega
  have hs : starts0x (List.drop i p) = false := contains0x_drop p hp i
  cases hd : List.drop i p with
  | nil => exact absurd hd hne
  | cons a s =>
    cases s with
    | nil => simp [starts0x]
    | cons b s' =>
      rw [hd] at hs
      simpa [starts0x] using hs

lemma dropTo0x_skips_key (p t : List Char) (hp : contains0x p = false) :
    dropTo0x (p ++ '0' :: 'x' :: t) = '0' :: 'x' :: t := by
  apply dropTo0x_append p _ (by simp [starts0x])
  intro i hi
  rw [List.drop_append_of_le_length (le_of_lt hi)]
  exact starts0x_append_false p t i hi hp

lemma contains0x_append_right (p q : List Char) (hq : starts0x q = true) :
    contains0x (p ++ q) = true := by
  induction p with
  | nil =>
    cases q with
    | nil => simp [starts0x] at hq
    | cons c r => simp [contains0x, hq]
  | cons c r ih => simp [contains0x, ih]

lemma contains0x_concat (p : List Char) (c : Char) (hp : contains0x p = false)
    (hc : c ≠ 'x') :
    contains0x (p ++ [c]) = false := by
  induction p with
  | nil => simp [contains0x, starts0x]
  | cons a r ih =>
    rw [contains0x] at hp
    simp only [Bool.or_eq_false_iff] at hp
    rw [List.cons_append, contains0x]
    simp only [Bool.or_eq_false_iff]
    refine ⟨?_, ih hp.2⟩
    cases r with
    | nil => simp [starts0x, hc]
    | cons b r' => simpa [starts0x] using hp.1

lemma contains0x_cons_of_ne (q : Char) (p : List Char) (hq : q ≠ '0') :
    contains0x (q :: p) = contains0x p := by
  rw [contains0x]
  cases p with
  | nil => simp [starts0x, hq]
  | cons b r => simp [starts0x, hq]

lemma dropWhile_cons_false {p : Char → Bool} {a : Char} {l : List Char}
    (h : p a = false) : List.dropWhile p (a :: l) = a :: l := by
  simp [List.dropWhile, h]

lemma dropWhile_cons_true {p : Char → Bool} {a : Char} {l : List Char}
    (h : p a = true) : List.dropWhile p (a :: l) = List.dropWhile p l := by
  simp [List.dropWhile, h]

lemma dropWhile_reverse_of_getLast (p : Char → Bool) (l : List Char)
    (h2 : ∀ a, l.getLast? = some a → p a = false) :
    (List.dropWhile p l.reverse).reverse = l := by
  cases hr : l.reverse with
  | nil =>
    have hl : l = [] := by simpa using congrArg List.reverse hr
    rw [hl]
    rfl
  | cons b rq =>
    have hb : p b = false := by
      apply h2
      rw [← List.head?_reverse, hr]
      rfl
    rw [dropWhile_cons_false hb, ← hr, List.reverse_reverse]

lemma stripTail (p : Char → Bool) (l : List Char) (q : Char) (hq : p q = true)
    (h2 : ∀ a, l.getLast? = some a → p a = false) :
    (List.dropWhile p ((l ++ [q]).reverse)).reverse = l := by
  have hrev : (l ++ [q]).reverse = q :: l.reverse := by simp
  rw [hrev, dropWhile_cons_true hq]
  exact dropWhile_reverse_of_getLast p l h2

lemma dropEnds_eq_self (p : Char → Bool) (l : List Char)
    (h1 : ∀ a, l.head? = some a → p a = false)
    (h2 : ∀ a, l.getLast? = some a → p a = false) :
    dropEnds p l = l := by
  cases l with
  | nil => rfl
  | cons a t =>
    have ha : p a = false := h1 a rfl
    unfold dropEnds
    rw [dropWhile_cons_false ha]
    exact dropWhile_reverse_of_getLast p (a :: t) h2

lemma dropEnds_strip_last (p : Char → Bool) (l : List Char) (q : Char)
    (hq : p q = true)
    (h1 : ∀ a, l.head? = some a → p a = false)
    (h2 : ∀ a, l.getLast? = some a → p a = false) :
    dropEnds p (l ++ [q]) = l := by
  cases l with
  | nil =>
    unfold dropEnds
    rw [List.nil_append, dropWhile_cons_true hq]
    rfl
  | cons a t =>
    have ha : p a = false := h1 a rfl
    unfold dropEnds
    rw [List.cons_append, dropWhile_cons_false ha, ← List.cons_append]
    exact stripTail p (a :: t) q hq h2

lemma dropEnds_strip_both (p : Char → Bool) (l : List Char) (q : Char)
    (hq : p q = true)
    (h1 : ∀ a, l.head? = some a → p a = false)
    (h2 : ∀ a, l.getLast? = some a → p a = false) :
    dropEnds p (q :: (l ++ [q])) = l := by
  cases l with
  | nil =>
    unfold dropEnds
    rw [List.nil_append, dropWhile_cons_true hq, dropWhile_cons_true hq]
    rfl
  | cons a t =>
    have ha : p a = false := h1 a rfl
    unfold dropEnds
    rw [dropWhile_cons_true hq, List.cons_append, dropWhile_cons_false ha,
      ← List.cons_append]
    exact stripTail p (a :: t) q hq h2


lemma hex_not_space (c : Char) (h : isHexChar c = true) : isSpaceJS c = false := by
  cases hs : isSpaceJS c with
  | false => rfl
  | true =>
    exfalso
    unfold isSpaceJS at hs
    simp only [Bool.or_eq_true, decide_eq_true_eq] at hs
    rcases hs with ((((rfl | rfl) | rfl) | rfl) | rfl) | rfl <;> exact absurd h (by decide)

lemma hex_ne_char (c q : Char) (h : isHexChar c = true) (hq : isHexChar q = false) :
    decide (c = q) = false := by
  cases hd : decide (c = q) with
  | false => rfl
  | true =>
    exfalso
    have hcq : c = q := of_decide_eq_true hd
    subst hcq
    rw [h] at hq
    exact Bool.noConfusion hq

lemma addr_getLast_cases (ds : List Char) :
    ('0' :: 'x' :: ds).getLast? = some 'x'
    ∨ ∃ c ∈ ds, ('0' :: 'x' :: ds).getLast? = some c := by
  rcases List.eq_nil_or_concat ds with rfl | ⟨t, c, rfl⟩
  · left; rfl
  · right
    refine ⟨c, by simp, ?_⟩
    simp only [List.concat_eq_append]
    rw [show ('0' :: 'x' :: (t ++ [c])) = ('0' :: 'x' :: t) ++ [c] by simp,
      List.getLast?_concat]

lemma addr_head_false (p : Char → Bool) (ds : List Char) (hp0 : p '0' = false) :
    ∀ a, ('0' :: 'x' :: ds).head? = some a → p a = false := by
  intro a ha
  cases ha
  exact hp0

lemma addr_getLast_false (p : Char → Bool) (ds : List Char)
    (hpx : p 'x' = false) (hds : ∀ c ∈ ds, p c = false) :
    ∀ a, ('0' :: 'x' :: ds).getLast? = some a → p a = false := by
  intro a ha
  rcases addr_getLast_cases ds with h | ⟨c, hc, h⟩
  · rw [h] at ha
    cases ha
    exact hpx
  · rw [h] at ha
    obtain rfl := Option.some.inj ha
    exact hds c hc

lemma addr_stage_keep (p : Char → Bool) (ds : List Char)
    (hp0 : p '0' = false) (hpx : p 'x' = false)
    (hds : ∀ c ∈ ds, p c = false) :
    dropEnds p ('0' :: 'x' :: ds) = '0' :: 'x' :: ds :=
  dropEnds_eq_self p _ (addr_head_false p ds hp0)
    (addr_getLast_false p ds hpx hds)

lemma addr_stage_keep_concat (p : Char → Bool) (ds : List Char) (q : Char)
    (hp0 : p '0' = false) (hpq : p q = false) :
    dropEnds p (('0' :: 'x' :: ds) ++ [q]) = ('0' :: 'x' :: ds) ++ [q] := by
  apply dropEnds_eq_self
  · intro a ha
    cases ha
    exact hp0
  · intro a ha
    rw [show ('0' :: 'x' :: ds) ++ [q] = ('0' :: 'x' :: ds) ++ [q] from rfl,
      List.getLast?_concat] at ha
    cases ha
    exact hpq

lemma addr_stage_strip_last (p : Char → Bool) (ds : List Char) (q : Char)
    (hq : p q = true) (hp0 : p '0' = false) (hpx : p 'x' = false)
    (hds : ∀ c ∈ ds, p c = false) :
    dropEnds p (('0' :: 'x' :: ds) ++ [q]) = '0' :: 'x' :: ds :=
  dropEnds_strip_last p _ q hq (addr_head_false p ds hp0)
    (addr_getLast_false p ds hpx hds)

lemma addr_stage_strip_both (p : Char → Bool) (ds : List Char) (q : Char)
    (hq : p q = true) (hp0 : p '0' = false) (hpx : p 'x' = false)
    (hds : ∀ c ∈ ds, p c = false) :
    dropEnds p (q :: (('0' :: 'x' :: ds) ++ [q])) = '0' :: 'x' :: ds :=
  dropEnds_strip_both p _ q hq (addr_head_false p ds hp0)
    (addr_getLast_false p ds hpx hds)



lemma wrapped_getLast (l : List Char) (q : Char) :
    (q :: (l ++ [q])).getLast? = some q := by
  rw [show q :: (l ++ [q]) = (q :: l) ++ [q] by simp, List.getLast?_concat]

lemma wrapped_stage_keep (p : Char → Bool) (l : List Char) (q : Char)
    (hq : p q = false) :
    dropEnds p (q :: (l ++ [q])) = q :: (l ++ [q]) := by
  apply dropEnds_eq_self
  · intro a ha
    cases ha
    exact hq
  · intro a ha
    rw [wrapped_getLast] at ha
    cases ha
    exact hq

lemma sanitizeCore_bare (ds : List Char) (wq : Wrap)
    (hds : ∀ c ∈ ds, isHexChar c = true) :
    sanitizeCore (wrapS wq ('0' :: 'x' :: ds)) = '0' :: 'x' :: ds := by
  have hds_space : ∀ c ∈ ds, isSpaceJS c = false :=
    fun c hc => hex_not_space c (hds c hc)
  have hds_dq : ∀ c ∈ ds, decide (c = '"') = false :=
    fun c hc => hex_ne_char c '"' (hds c hc) (by decide)
  have hds_sq : ∀ c ∈ ds, decide (c = '\'') = false :=
    fun c hc => hex_ne_char c '\'' (hds c hc) (by decide)
  have hne : '=' ∉ wrapS wq ('0' :: 'x' :: ds) := by
    cases wq <;> simp [wrapS] <;> intro hm <;> exact absurd (hds '=' hm) (by decide)
  have hcontains : (wrapS wq ('0' :: 'x' :: ds)).contains '=' = false := by
    simpa using hne
  have hcond : ((wrapS wq ('0' :: 'x' :: ds)).contains '='
      && contains0x (wrapS wq ('0' :: 'x' :: ds))) = false := by
    rw [hcontains, Bool.false_and]
  cases wq with
  | plain =>
    unfold sanitizeCore
    simp only [wrapS] at hcond ⊢
    simp only [List.isEmpty_cons, Bool.false_eq_true, if_false, hcond]
    rw [show trimJS ('0' :: 'x' :: ds) = '0' :: 'x' :: ds from
      addr_stage_keep _ ds (by decide) (by decide) hds_space]
    rw [show stripQuote '"' ('0' :: 'x' :: ds) = '0' :: 'x' :: ds from
      addr_stage_keep _ ds (by decide) (by decide) hds_dq]
    exact addr_stage_keep _ ds (by decide) (by decide) hds_sq
  | dquote =>
    unfold sanitizeCore
    simp only [wrapS] at hcond ⊢
    simp only [List.isEmpty_cons, Bool.false_eq_true, if_false, hcond]
    rw [show trimJS ('"' :: (('0' :: 'x' :: ds) ++ ['"']))
        = '"' :: (('0' :: 'x' :: ds) ++ ['"']) from
      wrapped_stage_keep _ _ '"' (by decide)]
    rw [show stripQuote '"' ('"' :: (('0' :: 'x' :: ds) ++ ['"']))
        = '0' :: 'x' :: ds from
      addr_stage_strip_both _ ds '"' (by decide) (by decide) (by decide) hds_dq]
    exact addr_stage_keep _ ds (by decide) (by decide) hds_sq
  | squote =>
    unfold sanitizeCore
    simp only [wrapS] at hcond ⊢
    simp only [List.isEmpty_cons, Bool.false_eq_true, if_false, hcond]
    rw [show trimJS ('\'' :: (('0' :: 'x' :: ds) ++ ['\'']))
        = '\'' :: (('0' :: 'x' :: ds) ++ ['\'']) from
      wrapped_stage_keep _ _ '\'' (by decide)]
    rw [show stripQuote '"' ('\'' :: (('0' :: 'x' :: ds) ++ ['\'']))
        = '\'' :: (('0' :: 'x' :: ds) ++ ['\'']) from
      wrapped_stage_keep _ _ '\'' (by decide)]
    exact addr_stage_strip_both _ ds '\'' (by decide) (by decide) (by decide) hds_sq

lemma contains0x_wrap_key_false (q : Char) (key : List Char)
    (hq : q ≠ '0') (hkey : contains0x key = false) :
    contains0x (q :: (key ++ ['='])) = false := by
  rw [contains0x_cons_of_ne q _ hq]
  exact contains0x_concat key '=' hkey (by decide)

lemma sanitizeCore_keyed (key ds : List Char) (wq : Wrap)
    (hkey : contains0x key = false)
    (hds : ∀ c ∈ ds, isHexChar c = true) :
    sanitizeCore (wrapS wq (key ++ '=' :: '0' :: 'x' :: ds)) = '0' :: 'x' :: ds := by
  have hds_space : ∀ c ∈ ds, isSpaceJS c = false :=
    fun c hc => hex_not_space c (hds c hc)
  have hds_dq : ∀ c ∈ ds, decide (c = '"') = false :=
    fun c hc => hex_ne_char c '"' (hds c hc) (by decide)
  have hds_sq : ∀ c ∈ ds, decide (c = '\'') = false :=
    fun c hc => hex_ne_char c '\'' (hds c hc) (by decide)
  cases wq with
  | plain =>
    have hl : wrapS .plain (key ++ '=' :: '0' :: 'x' :: ds)
        = (key ++ ['=']) ++ '0' :: 'x' :: ds := by
      simp [wrapS]
    rw [hl]
    have hmem : '=' ∈ (key ++ ['=']) ++ '0' :: 'x' :: ds := by simp
    have hcontains : ((key ++ ['=']) ++ '0' :: 'x' :: ds).contains '=' = true := by
      simp
    have h0x : contains0x ((key ++ ['=']) ++ '0' :: 'x' :: ds) = true :=
      contains0x_append_right _ _ (by simp [starts0x])
    have hslice : dropTo0x ((key ++ ['=']) ++ '0' :: 'x' :: ds) = '0' :: 'x' :: ds :=
      dropTo0x_skips_key _ ds (contains0x_concat key '=' hkey (by decide))
    have hempty : ((key ++ ['=']) ++ '0' :: 'x' :: ds).isEmpty = false := by
      cases key <;> rfl
    unfold sanitizeCore
    rw [hempty, hcontains, h0x]
    simp only [Bool.false_eq_true, if_false, Bool.and_self, if_true, hslice]
    rw [show trimJS ('0' :: 'x' :: ds) = '0' :: 'x' :: ds from
      addr_stage_keep _ ds (by decide) (by decide) hds_space]
    rw [show stripQuote '"' ('0' :: 'x' :: ds) = '0' :: 'x' :: ds from
      addr_stage_keep _ ds (by decide) (by decide) hds_dq]
    exact addr_stage_keep _ ds (by decide) (by decide) hds_sq
  | dquote =>
    have hl : wrapS .dquote (key ++ '=' :: '0' :: 'x' :: ds)
        = ('"' :: (key ++ ['='])) ++ '0' :: 'x' :: (ds ++ ['"']) := by
      simp [wrapS]
    rw [hl]
    have hmem : '=' ∈ ('"' :: (key ++ ['='])) ++ '0' :: 'x' :: (ds ++ ['"']) := by simp
    have hcontains : (('"' :: (key ++ ['='])) ++ '0' :: 'x' :: (ds ++ ['"'])).contains '=' = true := by
      simp
    have h0x : contains0x (('"' :: (key ++ ['='])) ++ '0' :: 'x' :: (ds ++ ['"'])) = true :=
      contains0x_append_right _ _ (by simp [starts0x])
    have hslice : dropTo0x (('"' :: (key ++ ['='])) ++ '0' :: 'x' :: (ds ++ ['"']))
        = '0' :: 'x' :: (ds ++ ['"']) :=
      dropTo0x_skips_key _ _ (contains0x_wrap_key_false '"' key (by decide) hkey)
    unfold sanitizeCore
    rw [hcontains, h0x, hslice]
    simp only [List.isEmpty_cons, Bool.false_eq_true, if_false, Bool.and_self, if_true]
    rw [show ('0' :: 'x' :: (ds ++ ['"'])) = ('0' :: 'x' :: ds) ++ ['"'] by simp]
    rw [show trimJS (('0' :: 'x' :: ds) ++ ['"']) = ('0' :: 'x' :: ds) ++ ['"'] from
      addr_stage_keep_concat _ ds '"' (by decide) (by decide)]
    rw [show stripQuote '"' (('0' :: 'x' :: ds) ++ ['"']) = '0' :: 'x' :: ds from
      addr_stage_strip_last _ ds '"' (by decide) (by decide) (by decide) hds_dq]
    exact addr_stage_keep _ ds (by decide) (by decide) hds_sq
  | squote =>
    have hl : wrapS .squote (key ++ '=' :: '0' :: 'x' :: ds)
        = ('\'' :: (key ++ ['='])) ++ '0' :: 'x' :: (ds ++ ['\'']) := by
      simp [wrapS]
    rw [hl]
    have hmem : '=' ∈ ('\'' :: (key ++ ['='])) ++ '0' :: 'x' :: (ds ++ ['\'']) := by simp
    have hcontains : (('\'' :: (key ++ ['='])) ++ '0' :: 'x' :: (ds ++ ['\''])).contains '=' = true := by
      simp
    have h0x : contains0x (('\'' :: (key ++ ['='])) ++ '0' :: 'x' :: (ds ++ ['\''])) = true :=
      contains0x_append_right _ _ (by simp [starts0x])
    have hslice : dropTo0x (('\'' :: (key ++ ['='])) ++ '0' :: 'x' :: (ds ++ ['\'']))
        = '0' :: 'x' :: (ds ++ ['\'']) :=
      dropTo0x_skips_key _ _ (contains0x_wrap_key_false '\'' key (by decide) hkey)
    unfold sanitizeCore
    rw [hcontains, h0x, hslice]
    simp only [List.isEmpty_cons, Bool.false_eq_true, if_false, Bool.and_self, if_true]
    rw [show ('0' :: 'x' :: (ds ++ ['\''])) = ('0' :: 'x' :: ds) ++ ['\''] by simp]
    rw [show trimJS (('0' :: 'x' :: ds) ++ ['\'']) = ('0' :: 'x' :: ds) ++ ['\''] from
      addr_stage_keep_concat _ ds '\'' (by decide) (by decide)]
    rw [show stripQuote '"' (('0' :: 'x' :: ds) ++ ['\'']) = ('0' :: 'x' :: ds) ++ ['\''] from
      addr_stage_keep_concat _ ds '\'' (by decide) (by decide)]
    exact addr_stage_strip_last _ ds '\'' (by decide) (by decide) (by decide) hds_sq

/-- C7 (amended): for every raw environment value of the form
`KEY=<addr>` and/or wrapped in surrounding single or double quotes, where
`KEY` does not contain the substring `0x` and `<addr>` is `0x` followed
by hexadecimal digits, the sanitizer returns exactly `<addr>` with the
prefix and the surrounding quotes stripped. (The restriction on `KEY` is
forced by the counterexample: a `0x` inside the key makes the slice start
there.) -/
theorem c7_amended (key ds : List Char) (wq : Wrap)
    (hkey : contains0x key = false)
    (hds : ∀ c ∈ ds, isHexChar c = true) :
    sanitizeAddress (some (String.mk (wrapS wq (key ++ '=' :: '0' :: 'x' :: ds))))
      = String.mk ('0' :: 'x' :: ds)
    ∧ sanitizeAddress (some (String.mk (wrapS wq ('0' :: 'x' :: ds))))
      = String.mk ('0' :: 'x' :: ds) := by
  constructor
  · exact congrArg String.mk (sanitizeCore_keyed key ds wq hkey hds)
  · exact congrArg String.mk (sanitizeCore_bare ds wq hds)

theorem c7_amended_witness :
    contains0x "CONTRACT_ADDRESS".data = false
    ∧ sanitizeAddress (some (String.mk (wrapS .dquote
        ("CONTRACT_ADDRESS".data ++ '=' :: '0' :: 'x' :: ['A', 'B', 'C']))))
      = String.mk ('0' :: 'x' :: ['A', 'B', 'C']) := by
  refine ⟨by decide, ?_⟩
  exact (c7_amended "CONTRACT_ADDRESS".data ['A', 'B', 'C'] .dquote
    (by decide) (by decide)).1


theorem c2_amended_witness :
    mainRun testWorld (some ("createSession", some (.parsed missingSessionPayload))) =
      ⟨[errObj "Missing required fields: sessionCode, classId"], 1, []⟩ :=
  (c2_amended testWorld missingSessionPayload).1 (Or.inl rfl)

theorem c4_witness :
    Ev.call (.markAttendance (.val (.str "S1")) (.val (.str "ST1"))
        (.val (.str "C1")) 7000000)
      ∈ (markAttendance testWorld markPayload).2 :=
  (c4_no_preflight testWorld markPayload rfl rfl rfl).2.2.1 ⟨"0xFEED"⟩ rfl

theorem c5_witness :
    (getContract testWorld).1 = .ok ⟨"0xFEED"⟩ := by
  exact ((c5_address_precedence testWorld).1 (by decide)).2 rfl rfl


theorem c6_witness :
    Ev.call (.createSession (.val (.str "S1")) (.val (.str "C1"))
        (.val (.num 30)) 7000000)
      ∈ (createSession testWorld csPayload).2 :=
  (c6_default_duration testWorld csPayload rfl rfl rfl).2 ⟨"0xFEED"⟩ rfl

theorem c8_witness :
    mainRun testWorld (some ("frobnicate", some (.parsed {}))) =
      ⟨[errObj "Unknown action: frobnicate"], 1, []⟩
    ∧ (mainRun testWorld (some ("getTotalRecords", some (.parsed {})))).exitCode = 0 := by
  constructor
  · exact (c8_unknown_action testWorld "frobnicate" {} .null).1 (by decide)
  · exact ((c8_unknown_action testWorld "getTotalRecords" {}
      (Json.obj [("success", .boolean true), ("totalRecords", .num 42)])).2 rfl).1

theorem c9_witness :
    mainRun testWorld (some ("getTotalRecords", none)) =
      ⟨[Json.obj [("success", .boolean true), ("totalRecords", .num 42)]], 0,
       (getContract testWorld).2 ++ [Ev.call .getTotalRecords]⟩ :=
  c9_total_records testWorld 42 ⟨"0xFEED"⟩ rfl (Or.inl rfl)

theorem c10_witness :
    Ev.call (.getRecordByIndex (.val (.str "")))
      ∈ (getRecordByIndex testWorld { index := .val (.str "") }).2
    ∧ isSessionValid testWorld { sessionCode := .val (.str "") } =
      (.error "Missing required field: sessionCode", []) := by
  constructor
  · exact (c10_index_only_undefined testWorld (.val (.str ""))).2.1 ⟨"0xFEED"⟩
      (fun h => JSVal.noConfusion h) rfl
  · exact ((c10_index_only_undefined testWorld (.val (.str ""))).2.2 rfl).1
